import Mathlib

/-!
Verification of the battery-thermal co-simulation core of the repository
(`generate_comprehensive_lives.py`, `generate_live_gifs.py`,
`generate_more_gifs.py`).  All numeric literals of the Python sources are
embedded as exact rationals (`ℚ`); the double-precision arithmetic of the
source is modelled as exact field arithmetic.  Random draws
(`np.random.normal`) are modelled as explicit noise streams `ν : ℕ → ℚ`
passed to the embedded function: the embedded function applied to a stream
describes the run of the source in which the generator produced exactly
those values (every real value lies in the support of the normal draws
used by the source).
-/

/-- The five named scenarios of `scenarios_params` in
`generate_comprehensive_lives.py`. -/
inductive Scenario
  | Idle | Browsing | Video | Gaming | Navigation
deriving DecidableEq

namespace Comp

/-! Embedding of `generate_comprehensive_lives.py` (module constants at the
top of that file). -/

def E_MAX_WH : ℚ := 22
def C_TH : ℚ := 2000
def R_TH : ℚ := 11/5
def T_AMB : ℚ := 25
def T_REF : ℚ := 25
def P_CPU_STATIC : ℚ := 2/5
def K_CPU_BASE : ℚ := 5
def ALPHA_CPU_T : ℚ := 1/500

/-- One record of the `scenarios_params` dict. -/
structure SParams where
  u_s : ℚ
  b : ℚ
  U : ℚ
  Rdl : ℚ
  Rul : ℚ
  Srx : ℚ
  Stx : ℚ
  f_g : ℚ

/-- The `scenarios_params` dict literal. -/
def scenarios_params : Scenario → SParams
  | .Idle       => ⟨0, 0,     1/20,   1/10, 1/20, 1/5,  1/5,  1/100⟩
  | .Browsing   => ⟨1, 2/5,   4/5,    5,    1/2,  3/10, 3/10, 1/50⟩
  | .Video      => ⟨1, 3/5,   1,      6,    1/2,  3/10, 3/10, 1/50⟩
  | .Gaming     => ⟨1, 7/10,  321/200, 1,   1/5,  1/4,  1/4,  1/100⟩
  | .Navigation => ⟨1, 3/5,   9/10,   2,    1/5,  7/20, 7/20, 4/5⟩

/-- `get_scenario_power(s_name, T_curr)`: instantaneous total power.
`U**GAMMA_CPU` with `GAMMA_CPU = 2.0` is embedded as squaring. -/
def get_scenario_power (s : Scenario) (T_curr : ℚ) : ℚ :=
  let p := scenarios_params s
  let P_screen := p.u_s * (200 * (7/1000) * p.b + 1/5)
  let P_proc := P_CPU_STATIC +
    K_CPU_BASE * (p.U * p.U) * (1 + ALPHA_CPU_T * (T_curr - T_REF))
  let P_modem := 2/5 + (p.Rdl * (1/20) + p.Rul * (2/25)) +
    (p.Srx * (1/4) + p.Stx * (1/4))
  let P_gps := if 0 < p.u_s then 1/5 + (63/1000) * p.f_g else 0
  let P_misc := 1/4 + 1/10
  P_screen + P_proc + P_modem + P_gps + P_misc

/-- The step loop of `simulate_scenario_fixed` (`dt = 60` seconds): the pair
`(soc[i], temp[i])`.  The source truncates its arrays at the step where
`soc` first reaches 0 (the `break`); the recurrence below coincides with
the source arrays on every index that the source retains, and the theorems
below only ever use indices proved to lie before depletion. -/
def simState (s : Scenario) : ℕ → ℚ × ℚ
  | 0 => (1, T_AMB)
  | n + 1 =>
    let st := simState s n
    let p := get_scenario_power s st.2
    (max 0 (st.1 - p / E_MAX_WH * (1/60)),
     st.2 + (p - (st.2 - T_AMB) / R_TH) * (60 / C_TH))

/-- `soc[i]` of `simulate_scenario_fixed`. -/
def soc (s : Scenario) (n : ℕ) : ℚ := (simState s n).1

/-- `temp[i]` of `simulate_scenario_fixed`. -/
def temp (s : Scenario) (n : ℕ) : ℚ := (simState s n).2

/-- `get_comp_power(s_name)` of `make_power_breakdown_gif`, with its fixed
`temp_sim = 35.0`: the components `(p_cpu, p_scr, p_mdm, p_misc)`. -/
def get_comp_power (s : Scenario) : ℚ × ℚ × ℚ × ℚ :=
  let d := scenarios_params s
  let p_scr := d.u_s * (200 * (7/1000) * d.b + 1/5)
  let p_cpu := P_CPU_STATIC +
    K_CPU_BASE * (d.U * d.U) * (1 + ALPHA_CPU_T * (35 - T_REF))
  let p_mdm := 2/5 + (d.Rdl * (1/20) + d.Rul * (2/25)) +
    (d.Srx * (1/4) + d.Stx * (1/4))
  let p_misc := 1/4 + 1/10 + (if 0 < d.u_s then 1/5 + (63/1000) * d.f_g else 0)
  (p_cpu, p_scr, p_mdm, p_misc)

/-- The per-component interpolation of `make_power_breakdown_gif`
(`p_start + (p_end - p_start) * alpha`), followed by the multiplicative
jitter factor `j`. -/
def lerpJitter (p_start p_end alpha j : ℚ) : ℚ :=
  (p_start + (p_end - p_start) * alpha) * j

end Comp

namespace Live

/-! Embedding of `generate_live_gifs.py`. -/

def E_MAX_WH : ℚ := 22
def P_IDLE : ℚ := 1/4
def C_TH : ℚ := 120
def R_TH : ℚ := 16/5
def T_AMB : ℚ := 25

/-- The deterministic piecewise power profile built in `get_live_data`
before noise is added (`p_sys[t_h < 1] = 0.5`, …); sample `i` is at
`t_h = i * dt_s / 3600` hours. -/
def basePower (dt_s : ℚ) (i : ℕ) : ℚ :=
  let t_h := (i : ℚ) * dt_s / 3600
  if t_h < 1 then 1/2
  else if t_h < 2 then 9/5
  else if t_h < 3 then 9/2
  else 5/2

/-- `p_sys` after the noise draw and the `np.maximum(p_sys, 0.1)` floor;
`ν i` is the value the normal draw added to sample `i`. -/
def p_sys (ν : ℕ → ℚ) (dt_s : ℚ) (i : ℕ) : ℚ :=
  max (basePower dt_s i + ν i) (1/10)

/-- The SOC loop of `get_live_data`: note the source applies no clamp. -/
def soc (ν : ℕ → ℚ) (dt_s : ℚ) : ℕ → ℚ
  | 0 => 1
  | n + 1 => soc ν dt_s n - (p_sys ν dt_s n + P_IDLE) / E_MAX_WH * (dt_s / 3600)

/-- The temperature loop of `get_live_data`. -/
def temp (ν : ℕ → ℚ) (dt_s : ℚ) : ℕ → ℚ
  | 0 => T_AMB
  | n + 1 =>
    temp ν dt_s n +
      ((p_sys ν dt_s n + P_IDLE) / C_TH -
        (temp ν dt_s n - T_AMB) / (R_TH * C_TH)) * dt_s

/-- `p_cpu = p_sys * 0.4` of `make_power_gif`. -/
def p_cpu (v : ℚ) : ℚ := v * (2/5)

/-- `p_screen = p_sys * 0.35 + 0.5` of `make_power_gif`. -/
def p_screen (v : ℚ) : ℚ := v * (7/20) + 1/2

/-- `p_modem = p_sys * 0.25` of `make_power_gif`. -/
def p_modem (v : ℚ) : ℚ := v * (1/4)

/-- The ensemble of `make_stochastic_gif`: run `k` is `get_live_data` with
the noise stream `νs k`, and only the SOC trace is kept. -/
def runs (νs : ℕ → ℕ → ℚ) (dt_s : ℚ) (n_runs : ℕ) : List (ℕ → ℚ) :=
  (List.range n_runs).map (fun k => soc (νs k) dt_s)

/-- The step-wise mean (`np.mean([...], axis=0)`) of the ensemble at
sample `i`. -/
def meanSoc (νs : ℕ → ℕ → ℚ) (dt_s : ℚ) (n_runs : ℕ) (i : ℕ) : ℚ :=
  ((List.range n_runs).map (fun k => soc (νs k) dt_s i)).sum / n_runs

end Live

namespace More

/-! Embedding of `generate_more_gifs.py` (`simulate_scenario`). -/

def E_MAX_WH : ℚ := 22
def P_IDLE : ℚ := 1/4
def C_TH : ℚ := 120
def R_TH : ℚ := 16/5

/-- One sample of the `simulate_scenario` state: `dead` records that the
`soc[i+1] <= 0` branch has fired, after which the source pins `soc` to 0
and runs the pure-relaxation temperature loop. -/
structure MState where
  soc : ℚ
  temp : ℚ
  dead : Bool
deriving DecidableEq

/-- One iteration of `simulate_scenario`'s loop: the active branch does the
clamped SOC update and the forward-Euler thermal update; the post-depletion
branch is the relaxation loop `temp[j+1] = temp[j] - (temp[j]-t_amb)/(R_TH*C_TH)*dt_s`. -/
def step (p_i dt_s t_amb e_max : ℚ) (st : MState) : MState :=
  if st.dead then
    { soc := 0
      temp := st.temp + (-(st.temp - t_amb) / (R_TH * C_TH)) * dt_s
      dead := true }
  else
    let p_bat := p_i + P_IDLE
    let soc' := max 0 (st.soc - (p_bat / e_max) * (dt_s / 3600))
    let temp' := st.temp + ((p_bat / C_TH) - (st.temp - t_amb) / (R_TH * C_TH)) * dt_s
    { soc := soc', temp := temp', dead := decide (soc' ≤ 0) }

/-- The trajectory of `simulate_scenario`: `p i` is the supplied power
profile evaluated at sample `i` (the source evaluates `p_profile` on
`t_h = i * dt_s / 3600`; the default profile is the constant 2.0). -/
def sim (p : ℕ → ℚ) (dt_s t_amb e_max : ℚ) : ℕ → MState
  | 0 => { soc := 1, temp := t_amb, dead := false }
  | n + 1 => step (p n) dt_s t_amb e_max (sim p dt_s t_amb e_max n)

end More

/-- The thermal update as written in `generate_comprehensive_lives.py`:
`temp + (p - (temp - t_amb)/r_th) * (dt_s/c_th)`. -/
def thermal_step_comp (T p t_amb r_th c_th dt_s : ℚ) : ℚ :=
  T + (p - (T - t_amb) / r_th) * (dt_s / c_th)

/-- The thermal update as written in `generate_live_gifs.py` and
`generate_more_gifs.py`: `temp + ((p/c_th) - (temp - t_amb)/(r_th*c_th)) * dt_s`. -/
def thermal_step_live (T p t_amb r_th c_th dt_s : ℚ) : ℚ :=
  T + ((p / c_th) - (T - t_amb) / (r_th * c_th)) * dt_s

/-- Claim C10: the two thermal-update formulas of the three duplicated
integrator loops agree on every input, as exact rational arithmetic. -/
theorem c10_thermal_steps_agree (T p t_amb r_th c_th dt_s : ℚ) :
    thermal_step_comp T p t_amb r_th c_th dt_s =
      thermal_step_live T p t_amb r_th c_th dt_s := by
  unfold thermal_step_comp thermal_step_live
  simp only [div_eq_mul_inv, mul_inv]
  ring

/-- Claim C9: with the jitter factor equal to 1, the interpolated value of
each of the four components at the exact midpoint of a segment
(`alpha = 1/2`) is the arithmetic mean of the component's value at the
start scenario and at the end scenario. -/
theorem c9_midpoint_is_mean (s1 s2 : Scenario) :
    (Comp.lerpJitter (Comp.get_comp_power s1).1 (Comp.get_comp_power s2).1 (1/2) 1 =
      ((Comp.get_comp_power s1).1 + (Comp.get_comp_power s2).1) / 2) ∧
    (Comp.lerpJitter (Comp.get_comp_power s1).2.1 (Comp.get_comp_power s2).2.1 (1/2) 1 =
      ((Comp.get_comp_power s1).2.1 + (Comp.get_comp_power s2).2.1) / 2) ∧
    (Comp.lerpJitter (Comp.get_comp_power s1).2.2.1 (Comp.get_comp_power s2).2.2.1 (1/2) 1 =
      ((Comp.get_comp_power s1).2.2.1 + (Comp.get_comp_power s2).2.2.1) / 2) ∧
    (Comp.lerpJitter (Comp.get_comp_power s1).2.2.2 (Comp.get_comp_power s2).2.2.2 (1/2) 1 =
      ((Comp.get_comp_power s1).2.2.2 + (Comp.get_comp_power s2).2.2.2) / 2) := by
  refine ⟨?_, ?_, ?_, ?_⟩ <;> · unfold Comp.lerpJitter; ring

/-! Helper lemmas about the `get_live_data` loops. -/

lemma live_soc_succ (ν : ℕ → ℚ) (dt n) : Live.soc ν dt (n+1) =
    Live.soc ν dt n - (Live.p_sys ν dt n + Live.P_IDLE) / Live.E_MAX_WH * (dt/3600) := rfl

lemma live_temp_succ (ν : ℕ → ℚ) (dt n) : Live.temp ν dt (n+1) =
    Live.temp ν dt n + ((Live.p_sys ν dt n + Live.P_IDLE) / Live.C_TH -
      (Live.temp ν dt n - Live.T_AMB) / (Live.R_TH * Live.C_TH)) * dt := rfl

lemma live_p_sys_pos (ν : ℕ → ℚ) (dt n) : (1:ℚ)/10 ≤ Live.p_sys ν dt n :=
  le_max_right _ _

lemma live_soc_step_le (ν : ℕ → ℚ) (dt : ℚ) (hdt : 0 ≤ dt) (n : ℕ) :
    Live.soc ν dt (n+1) ≤ Live.soc ν dt n := by
  have hp := live_p_sys_pos ν dt n
  rw [live_soc_succ]
  unfold Live.P_IDLE Live.E_MAX_WH
  have hnn : 0 ≤ (Live.p_sys ν dt n + 1/4) / 22 * (dt / 3600) := by positivity
  linarith

lemma live_soc_le_one (ν : ℕ → ℚ) (dt : ℚ) (hdt : 0 ≤ dt) (n : ℕ) :
    Live.soc ν dt n ≤ 1 := by
  induction n with
  | zero => exact le_refl 1
  | succ m ih => exact le_trans (live_soc_step_le ν dt hdt m) ih

lemma live_base_tail (n : ℕ) (h : 180 ≤ n) : Live.basePower 60 n = 5/2 := by
  have hn : (180:ℚ) ≤ (n:ℚ) := by exact_mod_cast h
  have h3 : (3:ℚ) ≤ (n : ℚ) * 60 / 3600 := by
    rw [le_div_iff₀ (by norm_num : (0:ℚ) < 3600)]
    linarith
  unfold Live.basePower
  rw [if_neg (by linarith), if_neg (by linarith), if_neg (by linarith)]

lemma live_soc_tail (k : ℕ) : Live.soc (fun _ => 0) 60 (180 + k) =
    Live.soc (fun _ => 0) 60 180 - k * (1/480) := by
  induction k with
  | zero => norm_num
  | succ m ih =>
    have h1 : 180 + (m+1) = (180 + m) + 1 := by ring
    rw [h1, live_soc_succ, ih]
    have hb : Live.p_sys (fun _ => 0) 60 (180 + m) = 5/2 := by
      unfold Live.p_sys
      rw [live_base_tail (180+m) (by omega)]
      norm_num
    rw [hb]
    unfold Live.P_IDLE Live.E_MAX_WH
    push_cast
    ring

lemma live_soc_congr (ν ν' : ℕ → ℚ) (dt : ℚ) (h : ∀ i, ν i = ν' i) :
    ∀ n, Live.soc ν dt n = Live.soc ν' dt n := by
  intro n
  induction n with
  | zero => rfl
  | succ m ih =>
    rw [live_soc_succ, live_soc_succ, ih]
    unfold Live.p_sys
    rw [h m]

lemma live_temp_congr (ν ν' : ℕ → ℚ) (dt : ℚ) (h : ∀ i, ν i = ν' i) :
    ∀ n, Live.temp ν dt n = Live.temp ν' dt n := by
  intro n
  induction n with
  | zero => rfl
  | succ m ih =>
    rw [live_temp_succ, live_temp_succ, ih]
    unfold Live.p_sys
    rw [h m]

/-! Helper lemmas about the `simulate_scenario` loop of `generate_more_gifs.py`. -/

lemma more_sim_succ (p : ℕ → ℚ) (dt_s t_amb e_max : ℚ) (n : ℕ) :
    More.sim p dt_s t_amb e_max (n+1) =
      More.step (p n) dt_s t_amb e_max (More.sim p dt_s t_amb e_max n) := rfl

lemma more_step_dead (p_i dt_s t_amb e_max : ℚ) (st : More.MState)
    (h : st.dead = true) :
    More.step p_i dt_s t_amb e_max st =
      { soc := 0
        temp := st.temp + (-(st.temp - t_amb) / (More.R_TH * More.C_TH)) * dt_s
        dead := true } := by
  unfold More.step
  rw [if_pos h]

lemma more_step_alive (p_i dt_s t_amb e_max : ℚ) (st : More.MState)
    (h : st.dead = false) :
    More.step p_i dt_s t_amb e_max st =
      { soc := max 0 (st.soc - ((p_i + More.P_IDLE) / e_max) * (dt_s / 3600))
        temp := st.temp + (((p_i + More.P_IDLE) / More.C_TH) -
          (st.temp - t_amb) / (More.R_TH * More.C_TH)) * dt_s
        dead := decide (max 0 (st.soc - ((p_i + More.P_IDLE) / e_max) * (dt_s / 3600)) ≤ 0) } := by
  unfold More.step
  rw [if_neg (by simp [h])]

lemma more_soc_bounds (p : ℕ → ℚ) (dt_s t_amb e_max : ℚ)
    (hp : ∀ i, 0 ≤ p i) (hdt : 0 ≤ dt_s) (he : 0 < e_max) (n : ℕ) :
    0 ≤ (More.sim p dt_s t_amb e_max n).soc ∧ (More.sim p dt_s t_amb e_max n).soc ≤ 1 := by
  induction n with
  | zero => exact ⟨by norm_num [More.sim], by norm_num [More.sim]⟩
  | succ m ih =>
    rw [more_sim_succ]
    cases h : (More.sim p dt_s t_amb e_max m).dead with
    | true => rw [more_step_dead _ _ _ _ _ h]; exact ⟨le_refl 0, by norm_num⟩
    | false =>
      rw [more_step_alive _ _ _ _ _ h]
      have hdrop : 0 ≤ ((p m + More.P_IDLE) / e_max) * (dt_s / 3600) := by
        have := hp m
        unfold More.P_IDLE
        positivity
      refine ⟨le_max_left _ _, ?_⟩
      have h1 : (More.sim p dt_s t_amb e_max m).soc -
          ((p m + More.P_IDLE) / e_max) * (dt_s / 3600) ≤ 1 := by linarith [ih.2]
      exact max_le (by norm_num) h1

lemma more_soc_step_le (p : ℕ → ℚ) (dt_s t_amb e_max : ℚ)
    (hp : ∀ i, 0 ≤ p i) (hdt : 0 ≤ dt_s) (he : 0 < e_max) (n : ℕ) :
    (More.sim p dt_s t_amb e_max (n+1)).soc ≤ (More.sim p dt_s t_amb e_max n).soc := by
  have hb := more_soc_bounds p dt_s t_amb e_max hp hdt he n
  rw [more_sim_succ]
  cases h : (More.sim p dt_s t_amb e_max n).dead with
  | true => rw [more_step_dead _ _ _ _ _ h]; exact hb.1
  | false =>
    rw [more_step_alive _ _ _ _ _ h]
    have hdrop : 0 ≤ ((p n + More.P_IDLE) / e_max) * (dt_s / 3600) := by
      have := hp n
      unfold More.P_IDLE
      positivity
    exact max_le hb.1 (by linarith)

/-! Helper lemmas about the `simulate_scenario_fixed` loop of
`generate_comprehensive_lives.py`. -/

lemma comp_soc_succ (s : Scenario) (n : ℕ) : Comp.soc s (n+1) =
    max 0 (Comp.soc s n -
      Comp.get_scenario_power s (Comp.temp s n) / Comp.E_MAX_WH * (1/60)) := rfl

lemma comp_temp_succ (s : Scenario) (n : ℕ) : Comp.temp s (n+1) =
    Comp.temp s n + (Comp.get_scenario_power s (Comp.temp s n) -
      (Comp.temp s n - Comp.T_AMB) / Comp.R_TH) * (60 / Comp.C_TH) := rfl

lemma comp_power_nonneg (s : Scenario) (T : ℚ) (h : 25 ≤ T) :
    0 ≤ Comp.get_scenario_power s T := by
  cases s <;>
    simp only [Comp.get_scenario_power, Comp.scenarios_params, Comp.P_CPU_STATIC,
      Comp.K_CPU_BASE, Comp.ALPHA_CPU_T, Comp.T_REF] <;>
    norm_num <;> linarith

lemma comp_temp_ge_amb (s : Scenario) (n : ℕ) : 25 ≤ Comp.temp s n := by
  induction n with
  | zero => exact le_refl 25
  | succ m ih =>
    have hp := comp_power_nonneg s (Comp.temp s m) ih
    rw [comp_temp_succ]
    unfold Comp.T_AMB Comp.R_TH Comp.C_TH
    linarith

lemma comp_soc_bounds (s : Scenario) (n : ℕ) :
    0 ≤ Comp.soc s n ∧ Comp.soc s n ≤ 1 := by
  induction n with
  | zero => exact ⟨by norm_num [Comp.soc, Comp.simState], by norm_num [Comp.soc, Comp.simState]⟩
  | succ m ih =>
    rw [comp_soc_succ]
    have hp := comp_power_nonneg s (Comp.temp s m) (comp_temp_ge_amb s m)
    have hdrop : 0 ≤ Comp.get_scenario_power s (Comp.temp s m) / Comp.E_MAX_WH * (1/60) := by
      unfold Comp.E_MAX_WH
      positivity
    exact ⟨le_max_left _ _, max_le (by norm_num) (by linarith [ih.2])⟩

lemma comp_soc_step_le (s : Scenario) (n : ℕ) : Comp.soc s (n+1) ≤ Comp.soc s n := by
  rw [comp_soc_succ]
  have hp := comp_power_nonneg s (Comp.temp s n) (comp_temp_ge_amb s n)
  have hb := comp_soc_bounds s n
  have hdrop : 0 ≤ Comp.get_scenario_power s (Comp.temp s n) / Comp.E_MAX_WH * (1/60) := by
    unfold Comp.E_MAX_WH
    positivity
  exact max_le hb.1 (by linarith)

/-- Claim C1 (amended): for the two integrators that clamp
(`simulate_scenario` of `generate_more_gifs.py`, on any nonnegative power
profile with positive capacity and nonnegative step, and
`simulate_scenario_fixed` of `generate_comprehensive_lives.py`, for every
scenario), `soc` is non-increasing from sample to sample and every sample
lies in `[0,1]`.  The `get_live_data` integrator is non-increasing and
bounded above by 1, but it applies no lower clamp, so its `soc` is not
confined to `[0,1]` (see the counterexample). -/
theorem c1_soc_monotone_bounded :
    (∀ (p : ℕ → ℚ) (dt_s t_amb e_max : ℚ), (∀ i, 0 ≤ p i) → 0 ≤ dt_s → 0 < e_max →
      ∀ n, 0 ≤ (More.sim p dt_s t_amb e_max n).soc ∧
        (More.sim p dt_s t_amb e_max n).soc ≤ 1 ∧
        (More.sim p dt_s t_amb e_max (n+1)).soc ≤ (More.sim p dt_s t_amb e_max n).soc) ∧
    (∀ (s : Scenario) (n : ℕ), 0 ≤ Comp.soc s n ∧ Comp.soc s n ≤ 1 ∧
        Comp.soc s (n+1) ≤ Comp.soc s n) ∧
    (∀ (ν : ℕ → ℚ) (dt_s : ℚ), 0 ≤ dt_s → ∀ n,
        Live.soc ν dt_s (n+1) ≤ Live.soc ν dt_s n ∧ Live.soc ν dt_s n ≤ 1) := by
  refine ⟨?_, ?_, ?_⟩
  · intro p dt_s t_amb e_max hp hdt he n
    exact ⟨(more_soc_bounds p dt_s t_amb e_max hp hdt he n).1,
      (more_soc_bounds p dt_s t_amb e_max hp hdt he n).2,
      more_soc_step_le p dt_s t_amb e_max hp hdt he n⟩
  · intro s n
    exact ⟨(comp_soc_bounds s n).1, (comp_soc_bounds s n).2, comp_soc_step_le s n⟩
  · intro ν dt_s hdt n
    exact ⟨live_soc_step_le ν dt_s hdt n, live_soc_le_one ν dt_s hdt n⟩

/-- Witness for C1: the three conjuncts at concrete inputs. -/
theorem c1_witness :
    (0 ≤ (More.sim (fun _ => 2) 60 25 22 3).soc ∧
      (More.sim (fun _ => 2) 60 25 22 3).soc ≤ 1 ∧
      (More.sim (fun _ => 2) 60 25 22 4).soc ≤ (More.sim (fun _ => 2) 60 25 22 3).soc) ∧
    (0 ≤ Comp.soc Scenario.Gaming 3 ∧ Comp.soc Scenario.Gaming 3 ≤ 1 ∧
      Comp.soc Scenario.Gaming 4 ≤ Comp.soc Scenario.Gaming 3) ∧
    (Live.soc (fun _ => 0) 60 4 ≤ Live.soc (fun _ => 0) 60 3 ∧
      Live.soc (fun _ => 0) 60 3 ≤ 1) :=
  ⟨c1_soc_monotone_bounded.1 (fun _ => 2) 60 25 22
      (fun _ => by norm_num) (by norm_num) (by norm_num) 3,
    c1_soc_monotone_bounded.2.1 Scenario.Gaming 3,
    c1_soc_monotone_bounded.2.2 (fun _ => 0) 60 (by norm_num) 3⟩

/-- Counterexample for C1 as stated: the `get_live_data` integrator run
for 12 hours with its own built-in power profile (noise draws all 0)
drives `soc` strictly below 0, so the SOC sequence does not stay in
`[0,1]` for every duration. -/
theorem c1_live_soc_leaves_unit_interval : Live.soc (fun _ => 0) 60 720 < 0 := by
  have h1 : (720 : ℕ) = 180 + 540 := by norm_num
  rw [h1, live_soc_tail 540]
  have h2 := live_soc_le_one (fun _ => 0) 60 (by norm_num) 180
  push_cast
  linarith

/-- Claim C5 (amended): the integrator loops are deterministic functions of
their inputs together with the noise values drawn while building the power
profile: two runs of `get_live_data` that observe identical per-step noise
draws produce bit-identical SOC and temperature trajectories.  (The claim
as stated fails because `get_live_data` draws fresh noise inside itself on
every call — see the counterexample.) -/
theorem c5_deterministic_given_draws (ν ν' : ℕ → ℚ) (dt_s : ℚ)
    (h : ∀ i, ν i = ν' i) (n : ℕ) :
    Live.soc ν dt_s n = Live.soc ν' dt_s n ∧
      Live.temp ν dt_s n = Live.temp ν' dt_s n :=
  ⟨live_soc_congr ν ν' dt_s h n, live_temp_congr ν ν' dt_s h n⟩

/-- Witness for C5. -/
theorem c5_witness :
    Live.soc (fun _ => 0) 60 7 = Live.soc (fun i => 0 * i) 60 7 ∧
      Live.temp (fun _ => 0) 60 7 = Live.temp (fun i => 0 * i) 60 7 :=
  c5_deterministic_given_draws (fun _ => 0) (fun i => 0 * i) 60
    (fun i => by norm_num) 7

/-- Counterexample for C5 as stated: the trajectory produced by
`get_live_data` depends on the noise values drawn inside it, so two calls
with identical scenario and configuration (but the different internal
draws that `np.random.normal` yields) do not produce bit-identical
trajectories: the all-zero draw and the all-one draw already differ at
sample 1. -/
theorem c5_output_depends_on_internal_draw :
    Live.soc (fun _ => 0) 60 1 ≠ Live.soc (fun _ => 1) 60 1 := by
  rw [live_soc_succ, live_soc_succ]
  unfold Live.soc Live.p_sys Live.basePower Live.P_IDLE Live.E_MAX_WH
  norm_num

/-- Claim C7: with zero noise (every per-step draw equal to its
`noise_std = 0` value, i.e. 0), the ensemble of `make_stochastic_gif`
consists of `n_runs` bit-identical SOC trajectories, each equal to the
deterministic `get_live_data` trajectory, and the step-wise mean equals
each individual trajectory exactly. -/
theorem c7_zero_noise_ensemble (νs : ℕ → ℕ → ℚ) (dt_s : ℚ) (n_runs : ℕ)
    (hn : 0 < n_runs) (hν : ∀ k i, νs k i = 0) :
    (∀ r ∈ Live.runs νs dt_s n_runs, ∀ i, r i = Live.soc (fun _ => 0) dt_s i) ∧
    (∀ i, Live.meanSoc νs dt_s n_runs i = Live.soc (fun _ => 0) dt_s i) := by
  have hrun : ∀ k i, Live.soc (νs k) dt_s i = Live.soc (fun _ => 0) dt_s i :=
    fun k => live_soc_congr (νs k) (fun _ => 0) dt_s (hν k)
  constructor
  · intro r hr i
    unfold Live.runs at hr
    obtain ⟨k, _, rfl⟩ := List.mem_map.mp hr
    exact hrun k i
  · intro i
    unfold Live.meanSoc
    have hmap : ((List.range n_runs).map (fun k => Live.soc (νs k) dt_s i)) =
        (List.range n_runs).map (fun _ => Live.soc (fun _ => 0) dt_s i) :=
      List.map_congr_left (fun k _ => hrun k i)
    rw [hmap, List.map_const', List.sum_replicate, List.length_range,
      nsmul_eq_mul]
    have hne : (n_runs : ℚ) ≠ 0 := Nat.cast_ne_zero.mpr hn.ne'
    field_simp

/-- Witness for C7: a two-run zero-noise ensemble at sample 3. -/
theorem c7_witness :
    Live.meanSoc (fun _ _ => 0) 60 2 3 = Live.soc (fun _ => 0) 60 3 :=
  (c7_zero_noise_ensemble (fun _ _ => 0) 60 2 (by norm_num)
    (fun _ _ => rfl)).2 3

/-! Lemmas for the depletion ("relax") behavior of `simulate_scenario`. -/

lemma more_dead_of_soc_zero (p : ℕ → ℚ) (dt_s t_amb e_max : ℚ) (n : ℕ)
    (h : (More.sim p dt_s t_amb e_max (n+1)).soc = 0) :
    (More.sim p dt_s t_amb e_max (n+1)).dead = true := by
  rw [more_sim_succ] at h ⊢
  cases hd : (More.sim p dt_s t_amb e_max n).dead with
  | true => rw [more_step_dead _ _ _ _ _ hd]
  | false =>
    rw [more_step_alive _ _ _ _ _ hd] at h ⊢
    simp only [decide_eq_true_eq]
    exact le_of_eq h

/-- Claim C4 (amended): under the relax policy of `simulate_scenario`,
once `soc` reaches 0 it is 0 at every later sample, and — provided the
step satisfies `0 < dt_s ≤ 2 * R_TH * C_TH = 768` (which holds for the
`dt_s = 60` used by every caller) — the post-depletion temperature
monotonically trends toward ambient: `|temp[i+1] - t_amb| ≤ |temp[i] - t_amb|`.
(For `dt_s > 768` the explicit-Euler relaxation is unstable and the
distance to ambient grows; see the counterexample.) -/
theorem c4_relax_pins_soc_and_contracts_temp (p : ℕ → ℚ) (dt_s t_amb e_max : ℚ)
    (h1 : 0 < dt_s) (h2 : dt_s ≤ 768) (n : ℕ)
    (h : (More.sim p dt_s t_amb e_max n).soc = 0) :
    (More.sim p dt_s t_amb e_max (n+1)).soc = 0 ∧
    |(More.sim p dt_s t_amb e_max (n+1)).temp - t_amb| ≤
      |(More.sim p dt_s t_amb e_max n).temp - t_amb| := by
  have hd : (More.sim p dt_s t_amb e_max n).dead = true := by
    cases n with
    | zero =>
      exfalso
      have h0 : (More.sim p dt_s t_amb e_max 0).soc = 1 := rfl
      rw [h0] at h
      norm_num at h
    | succ m => exact more_dead_of_soc_zero p dt_s t_amb e_max m h
  rw [more_sim_succ, more_step_dead _ _ _ _ _ hd]
  refine ⟨rfl, ?_⟩
  have hT : (More.sim p dt_s t_amb e_max n).temp +
      (-((More.sim p dt_s t_amb e_max n).temp - t_amb) / (More.R_TH * More.C_TH)) * dt_s
      - t_amb =
      ((More.sim p dt_s t_amb e_max n).temp - t_amb) * (1 - dt_s / 384) := by
    unfold More.R_TH More.C_TH
    ring
  show |(More.sim p dt_s t_amb e_max n).temp +
      (-((More.sim p dt_s t_amb e_max n).temp - t_amb) / (More.R_TH * More.C_TH)) * dt_s
      - t_amb| ≤ |(More.sim p dt_s t_amb e_max n).temp - t_amb|
  rw [hT, abs_mul]
  have hfac : |1 - dt_s / 384| ≤ 1 := by
    rw [abs_le]
    constructor <;> [linarith; linarith]
  exact mul_le_of_le_one_right (abs_nonneg _) hfac

/-- Witness for C4: constant 100 W profile with capacity 1 Wh depletes at
the first step; the next step keeps `soc` at 0 and does not move the
temperature farther from ambient. -/
theorem c4_witness :
    (More.sim (fun _ => 100) 60 25 1 2).soc = 0 ∧
    |(More.sim (fun _ => 100) 60 25 1 2).temp - 25| ≤
      |(More.sim (fun _ => 100) 60 25 1 1).temp - 25| := by
  refine c4_relax_pins_soc_and_contracts_temp (fun _ => 100) 60 25 1
    (by norm_num) (by norm_num) 1 ?_
  have h0 : More.sim (fun _ => 100) 60 25 1 1 =
      More.step 100 60 25 1 (More.sim (fun _ => 100) 60 25 1 0) := rfl
  have hd : (More.sim (fun _ => 100) 60 25 1 0).dead = false := rfl
  rw [h0, more_step_alive _ _ _ _ _ hd]
  show max 0 ((1:ℚ) - ((100 + More.P_IDLE) / 1) * (60 / 3600)) = 0
  unfold More.P_IDLE
  rw [max_eq_left (by norm_num)]

/-- Counterexample for C4 as stated: with the valid configuration
`dt_s = 1000` (a positive step) and a 100 W profile, the battery depletes
at step 1 and the post-depletion relaxation overshoots: the temperature
ends up farther from ambient than before the step, so post-depletion
temperature does not monotonically trend toward ambient for every valid
configuration. -/
theorem c4_relax_unstable_for_large_step :
    (More.sim (fun _ => 100) 1000 25 22 1).soc = 0 ∧
    |(More.sim (fun _ => 100) 1000 25 22 2).temp - 25| >
      |(More.sim (fun _ => 100) 1000 25 22 1).temp - 25| := by
  have h0 : More.sim (fun _ => 100) 1000 25 22 0 =
      { soc := 1, temp := 25, dead := false } := rfl
  have hs1 : More.sim (fun _ => 100) 1000 25 22 1 =
      { soc := 0, temp := 10325/12, dead := true } := by
    rw [more_sim_succ, h0, more_step_alive _ _ _ _ _ rfl]
    simp only [More.MState.mk.injEq]
    unfold More.P_IDLE More.C_TH More.R_TH
    refine ⟨?_, by norm_num, ?_⟩
    · rw [max_eq_left (by norm_num)]
    · simp only [decide_eq_true_eq]
      rw [max_eq_left (by norm_num)]
  have hs2 : More.sim (fun _ => 100) 1000 25 22 2 =
      { soc := 0, temp := -757525/576, dead := true } := by
    rw [more_sim_succ, hs1, more_step_dead _ _ _ _ _ rfl]
    simp only [More.MState.mk.injEq]
    unfold More.C_TH More.R_TH
    norm_num
  rw [hs1, hs2]
  refine ⟨rfl, ?_⟩
  show |(-757525/576 : ℚ) - 25| > |(10325/12 : ℚ) - 25|
  rw [abs_of_neg (by norm_num), abs_of_pos (by norm_num)]
  norm_num

/-! Lemmas about invalid configurations for `simulate_scenario`. -/

lemma more_neg_capacity_inv (p : ℕ → ℚ) (dt_s t_amb e_max : ℚ)
    (hp : ∀ i, 0 ≤ p i) (he : e_max < 0) (hdt : 0 ≤ dt_s) (n : ℕ) :
    1 ≤ (More.sim p dt_s t_amb e_max n).soc ∧
      (More.sim p dt_s t_amb e_max n).dead = false := by
  induction n with
  | zero => exact ⟨le_refl 1, rfl⟩
  | succ m ih =>
    have hgain : ((p m + More.P_IDLE) / e_max) * (dt_s / 3600) ≤ 0 := by
      have h1 : 0 ≤ p m + More.P_IDLE := by
        have := hp m
        unfold More.P_IDLE
        linarith
      have h2 : (p m + More.P_IDLE) / e_max ≤ 0 := div_nonpos_iff.mpr (Or.inl ⟨h1, he.le⟩)
      exact mul_nonpos_of_nonpos_of_nonneg h2 (by positivity)
    have hsoc : 1 ≤ max 0 ((More.sim p dt_s t_amb e_max m).soc -
        ((p m + More.P_IDLE) / e_max) * (dt_s / 3600)) :=
      le_max_of_le_right (by linarith [ih.1])
    rw [more_sim_succ, more_step_alive _ _ _ _ _ ih.2]
    refine ⟨hsoc, ?_⟩
    simp only [decide_eq_false_iff_not, not_le]
    linarith

/-- Claim C8 (amended): `simulate_scenario` performs no configuration
validation at all.  A configuration with negative capacity is accepted,
the step loop runs to completion, and (for any nonnegative profile) it
produces a full trajectory on which `soc` is nondecreasing and stays at or
above 1 — no error is reported before or during the loop, and no failure
ever interrupts the integration (the embedded arithmetic is total). -/
theorem c8_invalid_capacity_accepted (p : ℕ → ℚ) (dt_s t_amb e_max : ℚ)
    (hp : ∀ i, 0 ≤ p i) (he : e_max < 0) (hdt : 0 ≤ dt_s) (n : ℕ) :
    1 ≤ (More.sim p dt_s t_amb e_max n).soc ∧
      (More.sim p dt_s t_amb e_max n).soc ≤ (More.sim p dt_s t_amb e_max (n+1)).soc := by
  obtain ⟨h1, hd⟩ := more_neg_capacity_inv p dt_s t_amb e_max hp he hdt n
  refine ⟨h1, ?_⟩
  have hgain : ((p n + More.P_IDLE) / e_max) * (dt_s / 3600) ≤ 0 := by
    have hpos : 0 ≤ p n + More.P_IDLE := by
      have := hp n
      unfold More.P_IDLE
      linarith
    have h2 : (p n + More.P_IDLE) / e_max ≤ 0 := div_nonpos_iff.mpr (Or.inl ⟨hpos, he.le⟩)
    exact mul_nonpos_of_nonpos_of_nonneg h2 (by positivity)
  rw [more_sim_succ, more_step_alive _ _ _ _ _ hd]
  exact le_max_of_le_right (by linarith)

/-- Witness for C8. -/
theorem c8_witness :
    1 ≤ (More.sim (fun _ => 2) 60 25 (-22) 2).soc ∧
      (More.sim (fun _ => 2) 60 25 (-22) 2).soc ≤ (More.sim (fun _ => 2) 60 25 (-22) 3).soc :=
  c8_invalid_capacity_accepted (fun _ => 2) 60 25 (-22)
    (fun _ => by norm_num) (by norm_num) (by norm_num) 2

/-- Counterexample for C8 as stated: the invalid configuration
`e_max = -22` is not rejected — the loop runs and after one step even
reports a state of charge strictly greater than 1. -/
theorem c8_no_rejection_before_loop :
    (More.sim (fun _ => 2) 60 25 (-22) 1).soc > 1 := by
  have h0 : More.sim (fun _ => 2) 60 25 (-22) 0 =
      { soc := 1, temp := 25, dead := false } := rfl
  rw [more_sim_succ, h0, more_step_alive _ _ _ _ _ rfl]
  show max 0 ((1:ℚ) - ((2 + More.P_IDLE) / (-22)) * (60 / 3600)) > 1
  unfold More.P_IDLE
  rw [max_eq_right (by norm_num)]
  norm_num

/-- Claim C2 (amended): in `generate_comprehensive_lives.py` the four
components of `get_comp_power` are each nonnegative and sum exactly to
`get_scenario_power` at the composer's fixed temperature 35 °C; but the
three stacked components of `make_power_gif` in `generate_live_gifs.py`
sum to `p_sys + 0.5`, which exceeds the per-step battery power
`p_sys + P_IDLE` used by that file's integrator by exactly 1/4 W (and
there is no `gps_misc` component there at all). -/
theorem c2_breakdown_sums (s : Scenario) (v : ℚ) :
    (0 ≤ (Comp.get_comp_power s).1 ∧ 0 ≤ (Comp.get_comp_power s).2.1 ∧
      0 ≤ (Comp.get_comp_power s).2.2.1 ∧ 0 ≤ (Comp.get_comp_power s).2.2.2 ∧
      (Comp.get_comp_power s).1 + (Comp.get_comp_power s).2.1 +
        (Comp.get_comp_power s).2.2.1 + (Comp.get_comp_power s).2.2.2 =
        Comp.get_scenario_power s 35) ∧
    Live.p_cpu v + Live.p_screen v + Live.p_modem v = (v + Live.P_IDLE) + 1/4 := by
  constructor
  · cases s <;>
      · simp only [Comp.get_comp_power, Comp.get_scenario_power, Comp.scenarios_params,
          Comp.P_CPU_STATIC, Comp.K_CPU_BASE, Comp.ALPHA_CPU_T, Comp.T_REF]
        norm_num
  · unfold Live.p_cpu Live.p_screen Live.p_modem Live.P_IDLE
    ring

/-- Counterexample for C2 as stated: at the idle power level
`p_sys = 0.5`, the three components of `make_power_gif` sum to 1.0 W while
the integrator of that file uses `p_sys + P_IDLE = 0.75` W for the step —
the breakdown does not sum to the total the integrator uses. -/
theorem c2_live_breakdown_mismatch :
    Live.p_cpu (1/2) + Live.p_screen (1/2) + Live.p_modem (1/2) ≠ (1/2) + Live.P_IDLE := by
  unfold Live.p_cpu Live.p_screen Live.p_modem Live.P_IDLE
  norm_num

/-! The Idle scenario in closed linear form, and its 12-hour invariant. -/

lemma comp_power_idle (T : ℚ) :
    Comp.get_scenario_power Scenario.Idle T = 2543/2000 + (T - 25)/40000 := by
  simp only [Comp.get_scenario_power, Comp.scenarios_params, Comp.P_CPU_STATIC,
    Comp.K_CPU_BASE, Comp.ALPHA_CPU_T, Comp.T_REF]
  norm_num
  ring

lemma comp_idle_inv (n : ℕ) (hn : n ≤ 720) :
    0 ≤ Comp.temp Scenario.Idle n - 25 ∧ Comp.temp Scenario.Idle n - 25 ≤ 5 ∧
      1 - (n:ℚ)/1000 ≤ Comp.soc Scenario.Idle n := by
  induction n with
  | zero =>
    refine ⟨?_, ?_, ?_⟩ <;>
      norm_num [Comp.temp, Comp.soc, Comp.simState, Comp.T_AMB]
  | succ m ih =>
    obtain ⟨hx0, hx5, hsoc⟩ := ih (le_trans (Nat.le_succ m) hn)
    have hm : ((m:ℚ) + 1) ≤ 720 := by exact_mod_cast hn
    have hdrop : Comp.get_scenario_power Scenario.Idle (Comp.temp Scenario.Idle m) /
        Comp.E_MAX_WH * (1/60) ≤ 1/1000 := by
      rw [comp_power_idle]
      unfold Comp.E_MAX_WH
      linarith
    have hdrop0 : 0 ≤ Comp.get_scenario_power Scenario.Idle (Comp.temp Scenario.Idle m) /
        Comp.E_MAX_WH * (1/60) := by
      rw [comp_power_idle]
      unfold Comp.E_MAX_WH
      linarith
    have hrem : 0 ≤ Comp.soc Scenario.Idle m -
        Comp.get_scenario_power Scenario.Idle (Comp.temp Scenario.Idle m) /
          Comp.E_MAX_WH * (1/60) := by linarith
    refine ⟨?_, ?_, ?_⟩
    · rw [comp_temp_succ, comp_power_idle]
      unfold Comp.T_AMB Comp.R_TH Comp.C_TH
      linarith
    · rw [comp_temp_succ, comp_power_idle]
      unfold Comp.T_AMB Comp.R_TH Comp.C_TH
      linarith
    · rw [comp_soc_succ, max_eq_right hrem]
      push_cast
      linarith

/-- Claim C3 (amended): in the Idle simulation of `simulate_scenario_fixed`
(capacity 22 Wh, ambient 25 °C, 60-second steps, 12 hours = 720 samples)
`soc` is strictly decreasing at every one of the 719 steps — in particular
for the first 60 samples — but the battery does not deplete: `soc` stays
strictly positive through the final sample, so it never reaches 0 within
the 12-hour run (total idle power ≈ 1.27 W drains 22 Wh in ≈ 17.3 h, not
under 12 h). -/
theorem c3_idle_decreasing_but_undepleted (i : ℕ) (hi : i ≤ 719) :
    0 < Comp.soc Scenario.Idle i ∧
      (i < 719 → Comp.soc Scenario.Idle (i+1) < Comp.soc Scenario.Idle i) := by
  have hinv := comp_idle_inv i (le_trans hi (by norm_num))
  have hic : (i:ℚ) ≤ 719 := by exact_mod_cast hi
  constructor
  · linarith [hinv.2.2]
  · intro hlt
    have hinv1 := comp_idle_inv i (by omega)
    obtain ⟨hx0, hx5, hsoc⟩ := hinv1
    have hdrop0 : 0 < Comp.get_scenario_power Scenario.Idle (Comp.temp Scenario.Idle i) /
        Comp.E_MAX_WH * (1/60) := by
      rw [comp_power_idle]
      unfold Comp.E_MAX_WH
      linarith
    have hdrop1 : Comp.get_scenario_power Scenario.Idle (Comp.temp Scenario.Idle i) /
        Comp.E_MAX_WH * (1/60) ≤ 1/1000 := by
      rw [comp_power_idle]
      unfold Comp.E_MAX_WH
      linarith
    have hic2 : (i:ℚ) ≤ 718 := by
      have : i ≤ 718 := by omega
      exact_mod_cast this
    have hrem : 0 ≤ Comp.soc Scenario.Idle i -
        Comp.get_scenario_power Scenario.Idle (Comp.temp Scenario.Idle i) /
          Comp.E_MAX_WH * (1/60) := by linarith
    rw [comp_soc_succ, max_eq_right hrem]
    linarith

/-- Witness for C3. -/
theorem c3_witness :
    0 < Comp.soc Scenario.Idle 10 ∧ Comp.soc Scenario.Idle 11 < Comp.soc Scenario.Idle 10 :=
  ⟨(c3_idle_decreasing_but_undepleted 10 (by norm_num)).1,
    (c3_idle_decreasing_but_undepleted 10 (by norm_num)).2 (by norm_num)⟩

/-- Counterexample for C3 as stated: there is no step index at or below
720 at which the Idle `soc` equals 0 — the battery does not deplete
within the 12-hour run. -/
theorem c3_idle_never_depletes : ¬ ∃ i, i ≤ 720 ∧ Comp.soc Scenario.Idle i = 0 := by
  rintro ⟨i, hi, h0⟩
  have hinv := (comp_idle_inv i hi).2.2
  have hic : (i:ℚ) ≤ 720 := by exact_mod_cast hi
  rw [h0] at hinv
  linarith

/-! The Gaming scenario in closed linear form, and its 1-hour invariant.
The constant `686477220/18866549 ≈ 36.386` is the fixed point of the
Gaming thermal recurrence (the temperature excess at which generated heat
balances convective loss). -/

lemma comp_power_gaming (T : ℚ) :
    Comp.get_scenario_power Scenario.Gaming T =
      3120351/200000 + (103041/4000000) * (T - 25) := by
  simp only [Comp.get_scenario_power, Comp.scenarios_params, Comp.P_CPU_STATIC,
    Comp.K_CPU_BASE, Comp.ALPHA_CPU_T, Comp.T_REF]
  norm_num
  ring

lemma comp_gaming_inv (n : ℕ) (hn : n ≤ 59) :
    0 ≤ Comp.temp Scenario.Gaming n - 25 ∧
      Comp.temp Scenario.Gaming n - 25 < 686477220/18866549 ∧
      1 - (n:ℚ) * (13/1000) ≤ Comp.soc Scenario.Gaming n := by
  induction n with
  | zero =>
    refine ⟨?_, ?_, ?_⟩ <;>
      norm_num [Comp.temp, Comp.soc, Comp.simState, Comp.T_AMB]
  | succ m ih =>
    obtain ⟨hx0, hxB, hsoc⟩ := ih (le_trans (Nat.le_succ m) hn)
    have hm : ((m:ℚ) + 1) ≤ 59 := by exact_mod_cast hn
    have hmulA : (4343400353/4400000000 : ℚ) * (Comp.temp Scenario.Gaming m - 25) <
        (4343400353/4400000000) * (686477220/18866549) :=
      mul_lt_mul_of_pos_left hxB (by norm_num)
    have hfixA : (4343400353/4400000000 : ℚ) * (686477220/18866549) +
        (3/100) * (3120351/200000) = 686477220/18866549 := by norm_num
    have hmulS : (103041/4000000 : ℚ) * (Comp.temp Scenario.Gaming m - 25) <
        (103041/4000000) * (686477220/18866549) :=
      mul_lt_mul_of_pos_left hxB (by norm_num)
    have hsB : (103041/4000000 : ℚ) * (686477220/18866549) < 1 := by norm_num
    have hdrop : Comp.get_scenario_power Scenario.Gaming (Comp.temp Scenario.Gaming m) /
        Comp.E_MAX_WH * (1/60) ≤ 13/1000 := by
      rw [comp_power_gaming]
      unfold Comp.E_MAX_WH
      linarith
    have hdrop0 : 0 ≤ Comp.get_scenario_power Scenario.Gaming (Comp.temp Scenario.Gaming m) /
        Comp.E_MAX_WH * (1/60) := by
      rw [comp_power_gaming]
      unfold Comp.E_MAX_WH
      linarith
    have hrem : 0 ≤ Comp.soc Scenario.Gaming m -
        Comp.get_scenario_power Scenario.Gaming (Comp.temp Scenario.Gaming m) /
          Comp.E_MAX_WH * (1/60) := by linarith
    refine ⟨?_, ?_, ?_⟩
    · rw [comp_temp_succ, comp_power_gaming]
      unfold Comp.T_AMB Comp.R_TH Comp.C_TH
      linarith
    · rw [comp_temp_succ, comp_power_gaming]
      unfold Comp.T_AMB Comp.R_TH Comp.C_TH
      linarith
    · rw [comp_soc_succ, max_eq_right hrem]
      push_cast
      linarith

/-- Claim C6: in the Gaming simulation of `simulate_scenario_fixed` at
ambient 25 °C over 1 hour (60 samples), the temperature is strictly
increasing at every one of the 59 steps (so there is no step with
`temp[i+1] < temp[i]`), and `soc` stays strictly positive throughout the
hour (so no step with positive SOC sees a temperature drop, and the
trajectory is not truncated). -/
theorem c6_gaming_temp_increasing (i : ℕ) :
    (i < 59 → Comp.temp Scenario.Gaming i < Comp.temp Scenario.Gaming (i+1)) ∧
    (i ≤ 59 → 0 < Comp.soc Scenario.Gaming i) := by
  constructor
  · intro hlt
    obtain ⟨hx0, hxB, _⟩ := comp_gaming_inv i (by omega)
    have hmulC : (18866549/44000000 : ℚ) * (Comp.temp Scenario.Gaming i - 25) <
        (18866549/44000000) * (686477220/18866549) :=
      mul_lt_mul_of_pos_left hxB (by norm_num)
    have hfixC : (18866549/44000000 : ℚ) * (686477220/18866549) = 3120351/200000 := by
      norm_num
    rw [comp_temp_succ, comp_power_gaming]
    unfold Comp.T_AMB Comp.R_TH Comp.C_TH
    linarith
  · intro hle
    have hinv := (comp_gaming_inv i hle).2.2
    have hic : (i:ℚ) ≤ 59 := by exact_mod_cast hle
    linarith

/-- Witness for C6. -/
theorem c6_witness :
    Comp.temp Scenario.Gaming 5 < Comp.temp Scenario.Gaming 6 ∧
      0 < Comp.soc Scenario.Gaming 5 :=
  ⟨(c6_gaming_temp_increasing 5).1 (by norm_num),
    (c6_gaming_temp_increasing 5).2 (by norm_num)⟩
